import Mathlib

/-!
Shallow embedding of `src/neurokit2/signal/signal_filter.py` (NeuroKit).

The repository code under `src/` consists of the dispatcher `signal_filter`
and the two helpers `_signal_filter_savgol` and `_signal_filter_butterworth`.
All numeric work is delegated to the external numerics library
(`scipy.signal.butter`, `scipy.signal.sosfiltfilt`,
`scipy.signal.savgol_filter`), which is not part of this repository.
Those three library entry points are modelled here from the spec
(sections 4.2-4.4, 7) and the library's documented contract: their
parameter validation is made explicit, and their numeric cores (the
actual least-squares smoothing and the SOS filter application) are
abstracted into a `NumericsCore` collaborator structure whose only
stated contract is length preservation, exactly the narrow contract the
spec assigns to the external collaborator.  No claim below depends on
the numeric values the cores produce.

Signals are lists of rationals; Python floats are modelled as exact
rationals, Python `None` as `Option.none`, and raised exceptions as
`Except.error` values of the `FilterError` taxonomy.
-/

/-- Error taxonomy. `invalidParameter` stands for the ValueError/TypeError the
numerics library raises on malformed parameters (the spec's InvalidParameter);
`inputTooShort` for the padding-length ValueError of the zero-phase applicator;
`attributeError` for Python's untyped AttributeError (calling `.lower()` on a
non-string); `nameError` for Python's NameError (reading an unbound local). -/
inductive FilterError where
  | invalidParameter
  | inputTooShort
  | attributeError
  | nameError
deriving DecidableEq, Repr

/-- Butterworth filter kind, the `btype` argument of `scipy.signal.butter`. -/
inductive BType where
  | lowpass
  | highpass
  | bandpass
deriving DecidableEq, Repr

/-- Result of a successful filter design: the designed second-order-sections
filter, recorded as the design request it answers (kind, critical
frequencies, order, sampling frequency).  The numeric coefficients are
irrelevant to every claim and live behind the `NumericsCore` collaborator. -/
structure SOS where
  btype : BType
  wn : List ℚ
  order : ℤ
  fs : ℚ
deriving DecidableEq, Repr

/-- Python value passed as `window_length`: either a string (the `"default"`
marker, but `isinstance(window_length, str)` accepts any string) or an
integer. -/
inductive WindowLength where
  | str (s : String)
  | int (n : ℤ)
deriving DecidableEq, Repr

/-- Python value passed as `method`: a string, or any non-string object
(which has no `.lower` attribute). -/
inductive MethodArg where
  | str (s : String)
  | nonStr
deriving DecidableEq, Repr

/-- ASCII lowercasing of one character, as Python's `str.lower` acts on the
ASCII method names this code compares against. -/
def lowerChar (c : Char) : Char :=
  if 'A' ≤ c ∧ c ≤ 'Z' then Char.ofNat (c.toNat + 32) else c

/-- ASCII lowercasing of a string, modelling Python's `str.lower` on the
ASCII-only method aliases this code uses. -/
def lowerString (s : String) : String := String.mk (s.data.map lowerChar)

/-- Evaluation of `method.lower()` under Python dynamic typing: on a string it
lowercases, on anything else it raises AttributeError. -/
def methodLower : MethodArg → Except FilterError String
  | MethodArg.str s => Except.ok (lowerString s)
  | MethodArg.nonStr => Except.error FilterError.attributeError

/-- Rounding of `int(np.round(q))`: `np.round` rounds halves to the nearest
even integer (banker's rounding); the result is integral, so the `int`
conversion is exact. -/
def roundHalfToEven (q : ℚ) : ℤ :=
  let f := Int.floor q
  let frac := q - f
  if frac < 1/2 then f
  else if 1/2 < frac then f + 1
  else if f % 2 = 0 then f else f + 1

/-- Numeric cores of the external numerics library (spec section 9: an
external collaborator with a narrow contract).  `savgolSmooth w o s` is the
post-validation least-squares smoothing of `scipy.signal.savgol_filter`;
`sosApply d s` is the post-validation zero-phase filtering of
`scipy.signal.sosfiltfilt`.  The only contract the spec states for the
collaborator and that any claim needs is length preservation. -/
structure NumericsCore where
  savgolSmooth : ℤ → ℤ → List ℚ → List ℚ
  sosApply : SOS → List ℚ → List ℚ
  savgol_len : ∀ w o s, (savgolSmooth w o s).length = s.length
  sos_len : ∀ d s, (sosApply d s).length = s.length

/-- Modelled from the spec: `scipy.signal.butter(order, Wn, btype, output='sos',
fs)` is not repository code.  Per its documented contract (and spec section
4.2 / 7), each digital critical frequency must satisfy `0 < w < fs/2`,
otherwise the design raises ValueError, and a negative order raises
ValueError; otherwise design succeeds.  Note the order `0` is accepted (it
yields a pure-gain section). -/
def butter (order : ℤ) (wn : List ℚ) (btype : BType) (fs : ℚ) :
    Except FilterError SOS :=
  if ∀ w ∈ wn, 0 < w ∧ w < fs / 2 then
    if order < 0 then Except.error FilterError.invalidParameter
    else Except.ok (SOS.mk btype wn order fs)
  else Except.error FilterError.invalidParameter

/-- Modelled from the spec: `scipy.signal.sosfiltfilt(sos, signal)` is not
repository code.  Per spec section 4.3, zero-phase application pads the
signal proportionally to the filter order and needs roughly
`3 * (2 * order + 1)` samples; a shorter signal raises the
input-too-short error.  Otherwise the filtered signal is produced by the
collaborator core and has the input's length. -/
def sosfiltfilt (lib : NumericsCore) (sos : SOS) (signal : List ℚ) :
    Except FilterError (List ℚ) :=
  if (signal.length : ℤ) ≤ 3 * (2 * sos.order + 1) then
    Except.error FilterError.inputTooShort
  else Except.ok (lib.sosApply sos signal)

/-- Modelled from the spec: `scipy.signal.savgol_filter(signal, window_length,
polyorder)` is not repository code.  Per its documented contract (and spec
sections 4.4 / 7) it rejects an even window length, a polynomial order not
strictly below the window length, and (in the default interpolation mode) a
window length exceeding the signal length; otherwise the smoothing core
runs and preserves length. -/
def savgol_filter (lib : NumericsCore) (signal : List ℚ)
    (window_length : ℤ) (polyorder : ℤ) : Except FilterError (List ℚ) :=
  if window_length % 2 = 0 then Except.error FilterError.invalidParameter
  else if window_length ≤ polyorder then Except.error FilterError.invalidParameter
  else if (signal.length : ℤ) < window_length then
    Except.error FilterError.invalidParameter
  else Except.ok (lib.savgolSmooth window_length polyorder signal)

/-- Window length actually reaching the polynomial fit in
`_signal_filter_savgol`: a string argument is replaced by
`int(np.round(sampling_rate/10))`; an integer argument is passed through.
The source's subsequent `if (window_length % 2) == 0: window_length + 1` is
an expression statement whose value is discarded, so no odd-adjustment
takes place and an even derived value is forwarded unchanged. -/
def effectiveWindow (sampling_rate : ℚ) : WindowLength → ℤ
  | WindowLength.str _ => roundHalfToEven (sampling_rate / 10)
  | WindowLength.int n => n

/-- Embedding of `_signal_filter_savgol` (source lines 80-91): derive the
window length (see `effectiveWindow`) and call the library smoother. -/
def signal_filter_savgol (lib : NumericsCore) (signal : List ℚ)
    (sampling_rate : ℚ) (order : ℤ) (window_length : WindowLength) :
    Except FilterError (List ℚ) :=
  savgol_filter lib signal (effectiveWindow sampling_rate window_length) order

/-- Embedding of `_signal_filter_butterworth` (source lines 99-109): choose
bandpass / highpass / lowpass design from which cutoffs are present, then
apply it zero-phase.  With both cutoffs absent no branch assigns `sos` and
the Python function raises NameError; the dispatcher never reaches this
case. -/
def signal_filter_butterworth (lib : NumericsCore) (signal : List ℚ)
    (sampling_rate : ℚ) (lowcut highcut : Option ℚ) (order : ℤ) :
    Except FilterError (List ℚ) :=
  let sosE : Except FilterError SOS :=
    match lowcut, highcut with
    | some l, some h => butter order [l, h] BType.bandpass sampling_rate
    | some l, none => butter order [l] BType.highpass sampling_rate
    | none, some h => butter order [h] BType.lowpass sampling_rate
    | none, none => Except.error FilterError.nameError
  match sosE with
  | Except.error e => Except.error e
  | Except.ok sos => sosfiltfilt lib sos signal

/-- Embedding of `signal_filter` (source lines 64-73): if both cutoffs are
`None` the input is returned unchanged; otherwise `method.lower()` is
consulted and the savgol alias set routes to the Savitzky-Golay helper,
anything else to the Butterworth helper.  No parameter validation of its
own takes place. -/
def signal_filter (lib : NumericsCore) (signal : List ℚ)
    (sampling_rate : ℚ) (lowcut highcut : Option ℚ) (method : MethodArg)
    (order : ℤ) (window_length : WindowLength) :
    Except FilterError (List ℚ) :=
  match lowcut, highcut with
  | none, none => Except.ok signal
  | _, _ =>
    match methodLower method with
    | Except.error e => Except.error e
    | Except.ok m =>
      if ["sg", "savgol", "savitzky-golay"].contains m then
        signal_filter_savgol lib signal sampling_rate order window_length
      else
        signal_filter_butterworth lib signal sampling_rate lowcut highcut order

/-- Concrete instance of the collaborator contract (identity cores), used to
evaluate the embedding at closed inputs. -/
def idCore : NumericsCore where
  savgolSmooth := fun _ _ s => s
  sosApply := fun _ s => s
  savgol_len := fun _ _ _ => rfl
  sos_len := fun _ _ => rfl

/-!  Theorems.  -/

/-- Helper: once at least one cutoff is given, `signal_filter` proceeds to
`method.lower()` and the routing test. -/
theorem signal_filter_of_given (lib : NumericsCore) (signal : List ℚ)
    (sampling_rate : ℚ) (lowcut highcut : Option ℚ) (method : MethodArg)
    (order : ℤ) (window_length : WindowLength)
    (h : lowcut ≠ none ∨ highcut ≠ none) :
    signal_filter lib signal sampling_rate lowcut highcut method order window_length =
      match methodLower method with
      | Except.error e => Except.error e
      | Except.ok m =>
        if ["sg", "savgol", "savitzky-golay"].contains m then
          signal_filter_savgol lib signal sampling_rate order window_length
        else
          signal_filter_butterworth lib signal sampling_rate lowcut highcut order := by
  cases lowcut <;> cases highcut <;> simp_all [signal_filter]

/-- C1: with both cutoffs absent, `signal_filter` returns the input signal
unchanged, for every method (string or not), order and window length: the
identity passthrough examines none of them. -/
theorem identity_passthrough (lib : NumericsCore) (signal : List ℚ)
    (sampling_rate : ℚ) (method : MethodArg) (order : ℤ)
    (window_length : WindowLength) :
    signal_filter lib signal sampling_rate none none method order window_length =
      Except.ok signal := rfl

/-- C5: with at least one cutoff given, the method string is lowercased and
the alias set {"sg", "savgol", "savitzky-golay"} routes to the
Savitzky-Golay helper; every other string routes to the Butterworth helper. -/
theorem method_routing (lib : NumericsCore) (signal : List ℚ)
    (sampling_rate : ℚ) (lowcut highcut : Option ℚ) (m : String) (order : ℤ)
    (window_length : WindowLength) (h : lowcut ≠ none ∨ highcut ≠ none) :
    signal_filter lib signal sampling_rate lowcut highcut (MethodArg.str m)
        order window_length =
      if ["sg", "savgol", "savitzky-golay"].contains (lowerString m) then
        signal_filter_savgol lib signal sampling_rate order window_length
      else
        signal_filter_butterworth lib signal sampling_rate lowcut highcut order := by
  rw [signal_filter_of_given lib signal sampling_rate lowcut highcut
    (MethodArg.str m) order window_length h]
  rfl

/-- Witness for C5: a concrete mixed-case alias call instantiating the
routing equation. -/
theorem method_routing_witness :
    signal_filter idCore [(1 : ℚ)] 1000 (some 1) none (MethodArg.str "SavGol")
        2 (WindowLength.int 5) =
      if ["sg", "savgol", "savitzky-golay"].contains (lowerString "SavGol") then
        signal_filter_savgol idCore [(1 : ℚ)] 1000 2 (WindowLength.int 5)
      else
        signal_filter_butterworth idCore [(1 : ℚ)] 1000 (some 1) none 2 :=
  method_routing idCore [(1 : ℚ)] 1000 (some 1) none "SavGol" 2
    (WindowLength.int 5) (Or.inl (by simp))

/-- C9: on the Savitzky-Golay route the cutoffs are never used; two calls
that differ only in their (not both absent) cutoffs return identical
results. -/
theorem savgol_ignores_cutoffs (lib : NumericsCore) (signal : List ℚ)
    (sampling_rate : ℚ) (m : String) (order : ℤ)
    (window_length : WindowLength) (lc₁ hc₁ lc₂ hc₂ : Option ℚ)
    (hm : ["sg", "savgol", "savitzky-golay"].contains (lowerString m) = true)
    (h₁ : lc₁ ≠ none ∨ hc₁ ≠ none) (h₂ : lc₂ ≠ none ∨ hc₂ ≠ none) :
    signal_filter lib signal sampling_rate lc₁ hc₁ (MethodArg.str m) order
        window_length =
      signal_filter lib signal sampling_rate lc₂ hc₂ (MethodArg.str m) order
        window_length := by
  rw [signal_filter_of_given lib signal sampling_rate lc₁ hc₁
      (MethodArg.str m) order window_length h₁,
    signal_filter_of_given lib signal sampling_rate lc₂ hc₂
      (MethodArg.str m) order window_length h₂]
  have hm' : lowerString m = "sg" ∨ lowerString m = "savgol" ∨
      lowerString m = "savitzky-golay" := by simpa using hm
  simp [methodLower, hm']

/-- Witness for C9: two concrete savgol calls with different cutoffs agree. -/
theorem savgol_ignores_cutoffs_witness :
    signal_filter idCore [(1 : ℚ), 2, 3, 4, 5] 1000 (some 3) none
        (MethodArg.str "sg") 2 (WindowLength.int 5) =
      signal_filter idCore [(1 : ℚ), 2, 3, 4, 5] 1000 (some 400) (some 499)
        (MethodArg.str "sg") 2 (WindowLength.int 5) :=
  savgol_ignores_cutoffs idCore [(1 : ℚ), 2, 3, 4, 5] 1000 "sg" 2
    (WindowLength.int 5) (some 3) none (some 400) (some 499) (by decide)
    (Or.inl (by simp)) (Or.inl (by simp))

/-- C10: with at least one cutoff given, a non-string method raises the
untyped AttributeError from `method.lower()`; with both cutoffs absent the
method value is never examined and the call succeeds. -/
theorem non_string_method (lib : NumericsCore) (signal : List ℚ)
    (sampling_rate : ℚ) (lowcut highcut : Option ℚ) (order : ℤ)
    (window_length : WindowLength) :
    ((lowcut ≠ none ∨ highcut ≠ none) →
      signal_filter lib signal sampling_rate lowcut highcut MethodArg.nonStr
          order window_length = Except.error FilterError.attributeError)
    ∧ signal_filter lib signal sampling_rate none none MethodArg.nonStr order
        window_length = Except.ok signal := by
  constructor
  · intro h
    rw [signal_filter_of_given lib signal sampling_rate lowcut highcut
      MethodArg.nonStr order window_length h]
    rfl
  · rfl

/-- Witness for C10: a concrete non-string-method call fails with
AttributeError. -/
theorem non_string_method_witness :
    signal_filter idCore [(1 : ℚ)] 1000 (some 1) none MethodArg.nonStr 2
        (WindowLength.int 5) = Except.error FilterError.attributeError :=
  (non_string_method idCore [(1 : ℚ)] 1000 (some 1) none 2
    (WindowLength.int 5)).1 (Or.inl (by simp))

/-- Helper: the library design call rejects a critical frequency outside
(0, Nyquist) or a negative order. -/
theorem butter_invalid (order : ℤ) (wn : List ℚ) (btype : BType) (fs : ℚ)
    (h : (∃ w ∈ wn, ¬(0 < w ∧ w < fs / 2)) ∨ order < 0) :
    butter order wn btype fs = Except.error FilterError.invalidParameter := by
  unfold butter
  rcases h with ⟨w, hw, hbad⟩ | hneg
  · rw [if_neg]
    intro hall
    exact hbad (hall w hw)
  · by_cases hall : ∀ w ∈ wn, 0 < w ∧ w < fs / 2
    · rw [if_pos hall, if_pos hneg]
    · rw [if_neg hall]

/-- C2 (amended): on the Butterworth route, `signal_filter` performs no
parameter validation of its own.  First conjunct: the call fails with
InvalidParameter whenever some given cutoff is not strictly between 0 and
the Nyquist frequency, or the order is negative — failures raised inside
the library design call.  Second conjunct: with both cutoffs given,
whatever their values (a reversed pair included), the dispatcher forwards
them unvalidated to the bandpass design call and returns its outcome, so
enforcement of the cutoff-ordering precondition rests with the library's
design step, not with `signal_filter`. -/
theorem butterworth_failures_from_library (lib : NumericsCore)
    (signal : List ℚ) (sampling_rate : ℚ) (lowcut highcut : Option ℚ)
    (m : String) (order : ℤ) (window_length : WindowLength)
    (hm : ["sg", "savgol", "savitzky-golay"].contains (lowerString m) = false)
    (hgiven : lowcut ≠ none ∨ highcut ≠ none) :
    (((∃ c, lowcut = some c ∧ ¬(0 < c ∧ c < sampling_rate / 2)) ∨
        (∃ c, highcut = some c ∧ ¬(0 < c ∧ c < sampling_rate / 2)) ∨
        order < 0) →
      signal_filter lib signal sampling_rate lowcut highcut (MethodArg.str m)
          order window_length = Except.error FilterError.invalidParameter)
    ∧ (∀ l h, lowcut = some l → highcut = some h →
      signal_filter lib signal sampling_rate lowcut highcut (MethodArg.str m)
          order window_length =
        match butter order [l, h] BType.bandpass sampling_rate with
        | Except.error e => Except.error e
        | Except.ok sos => sosfiltfilt lib sos signal) := by
  constructor
  · intro hbad
    rw [signal_filter_of_given lib signal sampling_rate lowcut highcut
      (MethodArg.str m) order window_length hgiven]
    show (if ["sg", "savgol", "savitzky-golay"].contains (lowerString m) then
        signal_filter_savgol lib signal sampling_rate order window_length
      else
        signal_filter_butterworth lib signal sampling_rate lowcut highcut order) =
      Except.error FilterError.invalidParameter
    rw [if_neg (by simpa using hm)]
    cases lowcut with
    | none =>
      cases highcut with
      | none => simp at hgiven
      | some hcut =>
        have hb : butter order [hcut] BType.lowpass sampling_rate =
            Except.error FilterError.invalidParameter := by
          apply butter_invalid
          rcases hbad with ⟨c, hc, _⟩ | ⟨c, hc, hcbad⟩ | hneg
          · exact absurd hc (by simp)
          · exact Or.inl ⟨c, by simp [(Option.some.inj hc).symm], hcbad⟩
          · exact Or.inr hneg
        simp [signal_filter_butterworth, hb]
    | some lcut =>
      cases highcut with
      | none =>
        have hb : butter order [lcut] BType.highpass sampling_rate =
            Except.error FilterError.invalidParameter := by
          apply butter_invalid
          rcases hbad with ⟨c, hc, hcbad⟩ | ⟨c, hc, _⟩ | hneg
          · exact Or.inl ⟨c, by simp [(Option.some.inj hc).symm], hcbad⟩
          · exact absurd hc (by simp)
          · exact Or.inr hneg
        simp [signal_filter_butterworth, hb]
      | some hcut =>
        have hb : butter order [lcut, hcut] BType.bandpass sampling_rate =
            Except.error FilterError.invalidParameter := by
          apply butter_invalid
          rcases hbad with ⟨c, hc, hcbad⟩ | ⟨c, hc, hcbad⟩ | hneg
          · exact Or.inl ⟨c, by simp [(Option.some.inj hc).symm], hcbad⟩
          · exact Or.inl ⟨c, by simp [(Option.some.inj hc).symm], hcbad⟩
          · exact Or.inr hneg
        simp [signal_filter_butterworth, hb]
  · intro l h hl hh
    subst hl
    subst hh
    rw [signal_filter_of_given lib signal sampling_rate (some l) (some h)
      (MethodArg.str m) order window_length (Or.inl (by simp))]
    show (if ["sg", "savgol", "savitzky-golay"].contains (lowerString m) then
        signal_filter_savgol lib signal sampling_rate order window_length
      else
        signal_filter_butterworth lib signal sampling_rate (some l) (some h)
          order) =
      match butter order [l, h] BType.bandpass sampling_rate with
      | Except.error e => Except.error e
      | Except.ok sos => sosfiltfilt lib sos signal
    rw [if_neg (by simpa using hm)]
    rfl

/-- Witness for the amended C2: a cutoff at the Nyquist frequency (500 Hz at
a 1000 Hz sampling rate) makes the call fail with InvalidParameter. -/
theorem butterworth_failures_from_library_witness :
    signal_filter idCore [(1 : ℚ), 2, 3] 1000 none (some 500)
        (MethodArg.str "butterworth") 2 (WindowLength.int 5) =
      Except.error FilterError.invalidParameter :=
  (butterworth_failures_from_library idCore [(1 : ℚ), 2, 3] 1000 none
    (some 500) "butterworth" 2 (WindowLength.int 5) (by decide)
    (Or.inr (by simp))).1 (Or.inr (Or.inl ⟨500, rfl, by norm_num⟩))

/-- Counterexample to C2 as stated: `order = 0` violates `order ≥ 1`, yet the
call does not fail with InvalidParameter — it succeeds, because
`signal_filter` never validates the order and the library design accepts
order 0. -/
theorem order_zero_accepted :
    signal_filter idCore [(1 : ℚ), 2, 3, 4, 5] 1000 none (some 10)
        (MethodArg.str "butterworth") 0 (WindowLength.int 5) =
      Except.ok [(1 : ℚ), 2, 3, 4, 5] := by
  show signal_filter idCore [(1 : ℚ), 2, 3, 4, 5] 1000 none (some 10)
      (MethodArg.str "butterworth") 0 (WindowLength.int 5) =
    Except.ok [(1 : ℚ), 2, 3, 4, 5]
  rw [signal_filter_of_given idCore [(1 : ℚ), 2, 3, 4, 5] 1000 none (some 10)
    (MethodArg.str "butterworth") 0 (WindowLength.int 5) (Or.inr (by simp))]
  show (if ["sg", "savgol", "savitzky-golay"].contains
      (lowerString "butterworth") then
      signal_filter_savgol idCore [(1 : ℚ), 2, 3, 4, 5] 1000 0
        (WindowLength.int 5)
    else
      signal_filter_butterworth idCore [(1 : ℚ), 2, 3, 4, 5] 1000 none
        (some 10) 0) = Except.ok [(1 : ℚ), 2, 3, 4, 5]
  rw [if_neg (by decide)]
  show (match butter 0 [10] BType.lowpass 1000 with
    | Except.error e => Except.error e
    | Except.ok sos => sosfiltfilt idCore sos [(1 : ℚ), 2, 3, 4, 5]) =
      Except.ok [(1 : ℚ), 2, 3, 4, 5]
  rw [show butter 0 [10] BType.lowpass 1000 =
      Except.ok (SOS.mk BType.lowpass [10] 0 1000) by
    unfold butter
    rw [if_pos (by norm_num), if_neg (by norm_num)]]
  show sosfiltfilt idCore (SOS.mk BType.lowpass [10] 0 1000)
      [(1 : ℚ), 2, 3, 4, 5] = Except.ok [(1 : ℚ), 2, 3, 4, 5]
  unfold sosfiltfilt
  rw [if_neg (by norm_num)]
  rfl

/-- C3: on the Savitzky-Golay route the call fails with InvalidParameter
whenever the effective window length is even, or at most the polynomial
order, or exceeds the signal length. -/
theorem savgol_validation (lib : NumericsCore) (signal : List ℚ)
    (sampling_rate : ℚ) (lowcut highcut : Option ℚ) (m : String) (order : ℤ)
    (window_length : WindowLength)
    (hgiven : lowcut ≠ none ∨ highcut ≠ none)
    (hm : ["sg", "savgol", "savitzky-golay"].contains (lowerString m) = true)
    (hw : effectiveWindow sampling_rate window_length % 2 = 0 ∨
      effectiveWindow sampling_rate window_length ≤ order ∨
      (signal.length : ℤ) < effectiveWindow sampling_rate window_length) :
    signal_filter lib signal sampling_rate lowcut highcut (MethodArg.str m)
        order window_length = Except.error FilterError.invalidParameter := by
  rw [signal_filter_of_given lib signal sampling_rate lowcut highcut
    (MethodArg.str m) order window_length hgiven]
  show (if ["sg", "savgol", "savitzky-golay"].contains (lowerString m) then
      signal_filter_savgol lib signal sampling_rate order window_length
    else
      signal_filter_butterworth lib signal sampling_rate lowcut highcut order) =
    Except.error FilterError.invalidParameter
  rw [if_pos hm]
  unfold signal_filter_savgol savgol_filter
  rcases hw with h₁ | h₂ | h₃
  · rw [if_pos h₁]
  · by_cases h₁ : effectiveWindow sampling_rate window_length % 2 = 0
    · rw [if_pos h₁]
    · rw [if_neg h₁, if_pos (not_lt.mp (fun hlt => absurd h₂ (not_le.mpr hlt)))]
  · by_cases h₁ : effectiveWindow sampling_rate window_length % 2 = 0
    · rw [if_pos h₁]
    · rw [if_neg h₁]
      by_cases h₂ : effectiveWindow sampling_rate window_length ≤ order
      · rw [if_pos h₂]
      · rw [if_neg h₂, if_pos h₃]

/-- Witness for C3: an even explicit window length (4) fails with
InvalidParameter. -/
theorem savgol_validation_witness :
    signal_filter idCore [(1 : ℚ), 2, 3, 4, 5] 1000 (some 1) none
        (MethodArg.str "savgol") 2 (WindowLength.int 4) =
      Except.error FilterError.invalidParameter :=
  savgol_validation idCore [(1 : ℚ), 2, 3, 4, 5] 1000 (some 1) none "savgol" 2
    (WindowLength.int 4) (Or.inl (by simp)) (by decide) (Or.inl (by decide))

/-- C4: a string-valued window length makes the Savitzky-Golay helper use
`int(np.round(sampling_rate / 10))` as the window length with no odd
adjustment; at the default 1000 Hz sampling rate this is the even value 100,
forwarded unchanged to the polynomial fit, which rejects it. -/
theorem savgol_default_window :
    (∀ (lib : NumericsCore) (signal : List ℚ) (sampling_rate : ℚ) (order : ℤ)
        (marker : String),
      signal_filter_savgol lib signal sampling_rate order
          (WindowLength.str marker) =
        savgol_filter lib signal (roundHalfToEven (sampling_rate / 10)) order)
    ∧ roundHalfToEven ((1000 : ℚ) / 10) = 100
    ∧ (∀ (lib : NumericsCore) (signal : List ℚ) (order : ℤ) (marker : String),
      signal_filter_savgol lib signal 1000 order (WindowLength.str marker) =
          savgol_filter lib signal 100 order ∧
        savgol_filter lib signal 100 order =
          Except.error FilterError.invalidParameter) := by
  have h100 : roundHalfToEven ((1000 : ℚ) / 10) = 100 := by
    unfold roundHalfToEven
    norm_num
  refine ⟨fun lib signal sampling_rate order marker => rfl, h100,
    fun lib signal order marker => ⟨?_, ?_⟩⟩
  · show savgol_filter lib signal (effectiveWindow 1000
        (WindowLength.str marker)) order = savgol_filter lib signal 100 order
    rw [show effectiveWindow 1000 (WindowLength.str marker) = 100 from h100]
  · unfold savgol_filter
    rw [if_pos (by decide)]

/-- C6: in the Butterworth helper, both cutoffs select a bandpass design
between `lowcut` and `highcut`, only `lowcut` a highpass design at `lowcut`,
and only `highcut` a lowpass design at `highcut`; the designed filter is
then applied zero-phase to the signal. -/
theorem butterworth_type_selection (lib : NumericsCore) (signal : List ℚ)
    (sampling_rate l h : ℚ) (order : ℤ) (ho : 0 ≤ order) :
    ((0 < l ∧ l < sampling_rate / 2) → (0 < h ∧ h < sampling_rate / 2) →
      signal_filter_butterworth lib signal sampling_rate (some l) (some h)
          order =
        sosfiltfilt lib (SOS.mk BType.bandpass [l, h] order sampling_rate)
          signal)
    ∧ ((0 < l ∧ l < sampling_rate / 2) →
      signal_filter_butterworth lib signal sampling_rate (some l) none order =
        sosfiltfilt lib (SOS.mk BType.highpass [l] order sampling_rate)
          signal)
    ∧ ((0 < h ∧ h < sampling_rate / 2) →
      signal_filter_butterworth lib signal sampling_rate none (some h) order =
        sosfiltfilt lib (SOS.mk BType.lowpass [h] order sampling_rate)
          signal) := by
  refine ⟨fun hl hh => ?_, fun hl => ?_, fun hh => ?_⟩
  · have hb : butter order [l, h] BType.bandpass sampling_rate =
        Except.ok (SOS.mk BType.bandpass [l, h] order sampling_rate) := by
      unfold butter
      rw [if_pos ?_, if_neg (not_lt.mpr ho)]
      intro w hw
      simp only [List.mem_cons, List.not_mem_nil, or_false] at hw
      rcases hw with rfl | rfl
      · exact hl
      · exact hh
    show (match butter order [l, h] BType.bandpass sampling_rate with
      | Except.error e => Except.error e
      | Except.ok sos => sosfiltfilt lib sos signal) =
        sosfiltfilt lib (SOS.mk BType.bandpass [l, h] order sampling_rate)
          signal
    rw [hb]
  · have hb : butter order [l] BType.highpass sampling_rate =
        Except.ok (SOS.mk BType.highpass [l] order sampling_rate) := by
      unfold butter
      rw [if_pos ?_, if_neg (not_lt.mpr ho)]
      intro w hw
      simp only [List.mem_cons, List.not_mem_nil, or_false] at hw
      rcases hw with rfl
      exact hl
    show (match butter order [l] BType.highpass sampling_rate with
      | Except.error e => Except.error e
      | Except.ok sos => sosfiltfilt lib sos signal) =
        sosfiltfilt lib (SOS.mk BType.highpass [l] order sampling_rate) signal
    rw [hb]
  · have hb : butter order [h] BType.lowpass sampling_rate =
        Except.ok (SOS.mk BType.lowpass [h] order sampling_rate) := by
      unfold butter
      rw [if_pos ?_, if_neg (not_lt.mpr ho)]
      intro w hw
      simp only [List.mem_cons, List.not_mem_nil, or_false] at hw
      rcases hw with rfl
      exact hh
    show (match butter order [h] BType.lowpass sampling_rate with
      | Except.error e => Except.error e
      | Except.ok sos => sosfiltfilt lib sos signal) =
        sosfiltfilt lib (SOS.mk BType.lowpass [h] order sampling_rate) signal
    rw [hb]

/-- Witness for C6: a concrete bandpass selection at cutoffs 2 and 10 Hz. -/
theorem butterworth_type_selection_witness :
    signal_filter_butterworth idCore [(1 : ℚ)] 1000 (some 2) (some 10) 2 =
      sosfiltfilt idCore (SOS.mk BType.bandpass [2, 10] 2 1000) [(1 : ℚ)] :=
  (butterworth_type_selection idCore [(1 : ℚ)] 1000 2 10 2 (by norm_num)).1
    (by norm_num) (by norm_num)

/-- Helper: a successful zero-phase application returns a sequence of the
input's length (collaborator length contract). -/
theorem sosfiltfilt_length (lib : NumericsCore) (sos : SOS) (signal out : List ℚ)
    (h : sosfiltfilt lib sos signal = Except.ok out) :
    out.length = signal.length := by
  unfold sosfiltfilt at h
  split at h
  · exact absurd h (by simp)
  · simp only [Except.ok.injEq] at h
    rw [← h]
    exact lib.sos_len sos signal

/-- Helper: a successful Savitzky-Golay smoothing returns a sequence of the
input's length (collaborator length contract). -/
theorem savgol_filter_length (lib : NumericsCore) (signal : List ℚ)
    (window_length polyorder : ℤ) (out : List ℚ)
    (h : savgol_filter lib signal window_length polyorder = Except.ok out) :
    out.length = signal.length := by
  unfold savgol_filter at h
  split_ifs at h
  simp only [Except.ok.injEq] at h
  rw [← h]
  exact lib.savgol_len window_length polyorder signal

/-- Helper: a successful Butterworth helper call preserves length. -/
theorem signal_filter_butterworth_length (lib : NumericsCore)
    (signal : List ℚ) (sampling_rate : ℚ) (lowcut highcut : Option ℚ)
    (order : ℤ) (out : List ℚ)
    (h : signal_filter_butterworth lib signal sampling_rate lowcut highcut
      order = Except.ok out) :
    out.length = signal.length := by
  unfold signal_filter_butterworth at h
  cases lowcut <;> cases highcut <;> dsimp only at h
  case none.none => exact absurd h (by simp)
  case none.some hcut =>
    cases hb : butter order [hcut] BType.lowpass sampling_rate <;>
        rw [hb] at h
    · exact absurd h (by simp)
    · exact sosfiltfilt_length lib _ signal out h
  case some.none lcut =>
    cases hb : butter order [lcut] BType.highpass sampling_rate <;>
        rw [hb] at h
    · exact absurd h (by simp)
    · exact sosfiltfilt_length lib _ signal out h
  case some.some lcut hcut =>
    cases hb : butter order [lcut, hcut] BType.bandpass sampling_rate <;>
        rw [hb] at h
    · exact absurd h (by simp)
    · exact sosfiltfilt_length lib _ signal out h

/-- C7: whenever `signal_filter` returns a sequence, it has exactly the
length of the input signal, on every route. -/
theorem output_length_preserved (lib : NumericsCore) (signal : List ℚ)
    (sampling_rate : ℚ) (lowcut highcut : Option ℚ) (method : MethodArg)
    (order : ℤ) (window_length : WindowLength) (out : List ℚ)
    (h : signal_filter lib signal sampling_rate lowcut highcut method order
      window_length = Except.ok out) :
    out.length = signal.length := by
  unfold signal_filter at h
  cases lowcut <;> cases highcut <;> dsimp only at h
  case none.none =>
    simp only [Except.ok.injEq] at h
    rw [← h]
  all_goals
    cases method with
    | nonStr => exact absurd h (by simp [methodLower])
    | str m =>
      dsimp only [methodLower] at h
      split at h
      · exact savgol_filter_length lib signal _ order out h
      · exact signal_filter_butterworth_length lib signal sampling_rate _ _
          order out h

/-- Witness for C7: a concrete Savitzky-Golay call succeeds and returns a
sequence of the input's length. -/
theorem output_length_preserved_witness :
    ([(1 : ℚ), 2, 3, 4, 5] : List ℚ).length = [(1 : ℚ), 2, 3, 4, 5].length :=
  output_length_preserved idCore [(1 : ℚ), 2, 3, 4, 5] 1000 (some 1) none
    (MethodArg.str "savgol") 2 (WindowLength.int 5) [(1 : ℚ), 2, 3, 4, 5] rfl

/-- C8: on the Butterworth route with an accepted design, a signal too short
for the edge padding required by the filter order fails with InputTooShort
in the zero-phase application step. -/
theorem zero_phase_input_too_short (lib : NumericsCore) (signal : List ℚ)
    (sampling_rate : ℚ) (lowcut highcut : Option ℚ) (m : String) (order : ℤ)
    (window_length : WindowLength)
    (hm : ["sg", "savgol", "savitzky-golay"].contains (lowerString m) = false)
    (hgiven : lowcut ≠ none ∨ highcut ≠ none)
    (hvalid : (∀ c, lowcut = some c → 0 < c ∧ c < sampling_rate / 2) ∧
      (∀ c, highcut = some c → 0 < c ∧ c < sampling_rate / 2))
    (ho : 0 ≤ order)
    (hlen : (signal.length : ℤ) ≤ 3 * (2 * order + 1)) :
    signal_filter lib signal sampling_rate lowcut highcut (MethodArg.str m)
        order window_length = Except.error FilterError.inputTooShort := by
  rw [signal_filter_of_given lib signal sampling_rate lowcut highcut
    (MethodArg.str m) order window_length hgiven]
  show (if ["sg", "savgol", "savitzky-golay"].contains (lowerString m) then
      signal_filter_savgol lib signal sampling_rate order window_length
    else
      signal_filter_butterworth lib signal sampling_rate lowcut highcut order) =
    Except.error FilterError.inputTooShort
  rw [if_neg (by simpa using hm)]
  cases lowcut with
  | none =>
    cases highcut with
    | none => simp at hgiven
    | some hcut =>
      have hb : butter order [hcut] BType.lowpass sampling_rate =
          Except.ok (SOS.mk BType.lowpass [hcut] order sampling_rate) := by
        unfold butter
        rw [if_pos ?_, if_neg (not_lt.mpr ho)]
        intro w hw
        simp only [List.mem_cons, List.not_mem_nil, or_false] at hw
        rcases hw with rfl
        exact hvalid.2 w rfl
      show (match butter order [hcut] BType.lowpass sampling_rate with
        | Except.error e => Except.error e
        | Except.ok sos => sosfiltfilt lib sos signal) =
          Except.error FilterError.inputTooShort
      rw [hb]
      dsimp only [sosfiltfilt]
      rw [if_pos hlen]
  | some lcut =>
    cases highcut with
    | none =>
      have hb : butter order [lcut] BType.highpass sampling_rate =
          Except.ok (SOS.mk BType.highpass [lcut] order sampling_rate) := by
        unfold butter
        rw [if_pos ?_, if_neg (not_lt.mpr ho)]
        intro w hw
        simp only [List.mem_cons, List.not_mem_nil, or_false] at hw
        rcases hw with rfl
        exact hvalid.1 w rfl
      show (match butter order [lcut] BType.highpass sampling_rate with
        | Except.error e => Except.error e
        | Except.ok sos => sosfiltfilt lib sos signal) =
          Except.error FilterError.inputTooShort
      rw [hb]
      dsimp only [sosfiltfilt]
      rw [if_pos hlen]
    | some hcut =>
      have hb : butter order [lcut, hcut] BType.bandpass sampling_rate =
          Except.ok (SOS.mk BType.bandpass [lcut, hcut] order sampling_rate) := by
        unfold butter
        rw [if_pos ?_, if_neg (not_lt.mpr ho)]
        intro w hw
        simp only [List.mem_cons, List.not_mem_nil, or_false] at hw
        rcases hw with rfl | rfl
        · exact hvalid.1 w rfl
        · exact hvalid.2 w rfl
      show (match butter order [lcut, hcut] BType.bandpass sampling_rate with
        | Except.error e => Except.error e
        | Except.ok sos => sosfiltfilt lib sos signal) =
          Except.error FilterError.inputTooShort
      rw [hb]
      dsimp only [sosfiltfilt]
      rw [if_pos hlen]

/-- Witness for C8: a 3-sample signal is too short for an order-2 Butterworth
zero-phase application (which needs more than 15 samples). -/
theorem zero_phase_input_too_short_witness :
    signal_filter idCore [(1 : ℚ), 2, 3] 1000 none (some 10)
        (MethodArg.str "butterworth") 2 (WindowLength.int 5) =
      Except.error FilterError.inputTooShort :=
  zero_phase_input_too_short idCore [(1 : ℚ), 2, 3] 1000 none (some 10)
    "butterworth" 2 (WindowLength.int 5) (by decide) (Or.inr (by simp))
    ⟨fun c hc => by simp at hc, fun c hc => by
      rw [show c = 10 from (Option.some.inj hc).symm]
      norm_num⟩
    (by norm_num) (by norm_num)
